import Mathlib

/-!
Verification of the DAG execution engine of a small workflow orchestrator
(Flask + background scheduler over a blob store).  The Lean definitions below
are a shallow embedding of the Python source files `dag_definitions.py`,
`dag_runner.py` and the trigger endpoint in `app.py`.  Timestamps are modelled
as abstract `Nat` values supplied where the source calls the clock; the
external query service is modelled by an abstract result; blob-store and
logger effects are modelled as explicit event traces.
-/

namespace AirflowLite

/-- Task and run statuses, as the string constants used by the source
(`"QUEUED"`, `"PENDING"`, `"RUNNING"`, `"SUCCESS"`, `"FAILED"`). -/
inductive Status where
  | queued
  | pending
  | running
  | success
  | failed
deriving DecidableEq, Repr

/-- `Task` from `dag_definitions.py`: a task id, the query payload, and the
list of task ids it depends on. -/
structure Task where
  task_id : String
  bigquery_query : String
  depends_on : List String
deriving DecidableEq, Repr

/-- `DAG` from `dag_definitions.py` (after successful construction). -/
structure DAG where
  dag_id : String
  schedule_interval : Option String
  tasks : List Task
deriving DecidableEq, Repr

/-- Membership test in the `_task_map` dict built by `DAG.__init__`
(`{task.task_id: task for task in self.tasks}`): a key is present iff some
task in the list carries that id. -/
def taskMapContains (tasks : List Task) (d : String) : Bool :=
  tasks.any (fun t => t.task_id == d)

/-- The dependency validation performed by `DAG.__init__`
(`dag_definitions.py` lines 30-34): every `depends_on` entry of every task
must be a key of `_task_map`.  This is the whole construction-time check —
the source performs no cycle detection. -/
def dagValidate (tasks : List Task) : Bool :=
  tasks.all (fun t => t.depends_on.all (fun d => taskMapContains tasks d))

/-- `DAG(...)` construction: raises `ValueError` (modelled as `.error`) iff
`dagValidate` fails, otherwise yields the constructed DAG. -/
def DAG.make (dag_id : String) (schedule_interval : Option String)
    (tasks : List Task) : Except String DAG :=
  if dagValidate tasks then
    .ok ⟨dag_id, schedule_interval, tasks⟩
  else
    .error ("a task depends on a non-existent task in DAG " ++ dag_id)

/-- `DAG.get_task`: lookup in the `_task_map` dict.  Python dict
comprehension semantics: a later task with the same id overwrites an earlier
one, so the fold keeps the last match. -/
def DAG.get_task (d : DAG) (tid : String) : Option Task :=
  d.tasks.foldl (fun acc t => if t.task_id == tid then some t else acc) none

/-- Modelled from the spec glossary ("DAG: a named, finite, cycle-free set of
tasks"): the dependency edges of the task list, one step — `a` steps to `b`
when the task named `a` lists `b` in `depends_on`. -/
def depStep (tasks : List Task) (a : String) : List String :=
  match tasks.find? (fun t => t.task_id == a) with
  | some t => t.depends_on
  | none => []

/-- Spec-side definition: `b` is reachable from `a` through at most
`fuel + 1` dependency edges. -/
def depReach (tasks : List Task) : Nat → String → String → Bool
  | 0, a, b => (depStep tasks a).contains b
  | fuel + 1, a, b =>
      (depStep tasks a).contains b
        || (depStep tasks a).any (fun c => depReach tasks fuel c b)

/-- Spec-side definition (the property `CyclicDependency` is meant to
reject): some task can reach itself through at least one dependency edge. -/
def specHasCycle (tasks : List Task) : Bool :=
  tasks.any (fun t => depReach tasks tasks.length t.task_id t.task_id)

/-- A one-task DAG whose single task depends on itself: the dependency graph
is a cycle. -/
def selfCycleTask : Task :=
  { task_id := "a", bigquery_query := "SELECT 1", depends_on := ["a"] }

/-- C1: for every DAG, construction-time validation fails iff some
`depends_on` references an unknown task_id **or** the graph has a cycle, and
cyclic graphs are rejected with `CyclicDependency`.  The code contradicts
this: `DAG.__init__` checks only that every dependency id is a key of
`_task_map` and performs no cycle detection, so a task that depends on
itself — a cyclic dependency graph — is accepted.  Evaluated at the concrete
failing input `selfCycleTask`. -/
theorem dag_construction_accepts_self_cycle :
    dagValidate [selfCycleTask] = true
      ∧ DAG.make "d" none [selfCycleTask]
          = .ok ⟨"d", none, [selfCycleTask]⟩
      ∧ specHasCycle [selfCycleTask] = true :=
  ⟨by decide, rfl, by decide⟩

/-- One entry of the `task_instances` list of the run metadata document
(`dag_runner.py` lines 30-37). -/
structure TaskInstance where
  task_id : String
  status : Status
  start_time : Option Nat
  end_time : Option Nat
  log_file_path : String
  depends_on : List String
deriving DecidableEq, Repr

/-- The run metadata document persisted at `metadata.json`
(`dag_runner.py` lines 38-45).  `status` is the run-level overall status. -/
structure RunMetadata where
  dag_id : String
  run_id : String
  start_time : Option Nat
  end_time : Option Nat
  status : Status
  task_instances : List TaskInstance
deriving DecidableEq, Repr

/-- `self.task_log_gcs_prefix` of `DAGExecutor.__init__`. -/
def taskLogBasePath (dag_id run_id : String) : String :=
  "dag_runs/" ++ dag_id ++ "/" ++ run_id ++ "/logs"

/-- `self.metadata_gcs_path` of `DAGExecutor.__init__`. -/
def metadataGcsPath (dag_id run_id : String) : String :=
  "dag_runs/" ++ dag_id ++ "/" ++ run_id ++ "/metadata.json"

/-- One initial task-instance record (`dag_runner.py` lines 30-37). -/
def initialTaskInstance (dag_id run_id : String) (t : Task) : TaskInstance :=
  { task_id := t.task_id
    status := .queued
    start_time := none
    end_time := none
    log_file_path := taskLogBasePath dag_id run_id ++ "/" ++ t.task_id ++ ".log"
    depends_on := t.depends_on }

/-- `DAGExecutor._get_initial_run_metadata` (`dag_runner.py` lines 26-45):
run-level status RUNNING, start time stamped, every instance QUEUED. -/
def getInitialRunMetadata (dag : DAG) (run_id : String) (now : Nat) : RunMetadata :=
  { dag_id := dag.dag_id
    run_id := run_id
    start_time := some now
    end_time := none
    status := .running
    task_instances := dag.tasks.map (initialTaskInstance dag.dag_id run_id) }

/-- Observable effects of the executor and scheduler, in program order:
whole-document metadata writes (`upload_json_to_gcs`), task-log text writes
(`upload_text_to_gcs`), logger calls, and submissions to the worker pool
(`self.executor.submit`). -/
inductive Ev where
  | persistDoc (m : RunMetadata)
  | writeLog (path : String) (text : String)
  | logInfo (msg : String)
  | logError (msg : String)
  | submitTask (idx : Nat)
deriving DecidableEq, Repr

/-- Outcome of the external call `execute_bigquery_query` as observed inside
`_execute_task`: it returns `(True, rows)`, returns `(False, message)`, or
raises (`bigquery_utils.py` returns a pair; any raise lands in the
`except` branch of `_execute_task`). -/
inductive ExecResult where
  | ok (rows : Nat)
  | err (msg : String)
  | exn (msg : String)
deriving DecidableEq, Repr

/-- The status `_execute_task` assigns after the external call
(lines 74, 78, 83 of `dag_runner.py`). -/
def execOutcomeStatus : ExecResult → Status
  | .ok _ => .success
  | .err _ => .failed
  | .exn _ => .failed

/-- The `log_content` text `_execute_task` builds
(lines 75, 79, 84 of `dag_runner.py`). -/
def execLogContent (tk : Task) : ExecResult → String
  | .ok rows =>
      "Task " ++ tk.task_id ++ " completed successfully.\nRows affected/processed: "
        ++ toString rows
  | .err msg => "Task " ++ tk.task_id ++ " failed.\nError: " ++ msg
  | .exn msg => "Task " ++ tk.task_id ++ " failed with unhandled exception: " ++ msg

/-- The logger call made right after the external call resolves
(lines 76, 80, 85 of `dag_runner.py`). -/
def execResultLogEv (tk : Task) (run_id : String) : ExecResult → Ev
  | .ok _ => .logInfo ("Task " ++ tk.task_id ++ " of run " ++ run_id ++ " succeeded.")
  | .err msg =>
      .logError ("Task " ++ tk.task_id ++ " of run " ++ run_id ++ " failed: " ++ msg)
  | .exn _ =>
      .logError ("Unhandled exception during task " ++ tk.task_id
        ++ " execution in run " ++ run_id)

/-- The in-memory mutation of lines 65-66: status RUNNING, start time
stamped. -/
def startInstance (ti : TaskInstance) (t1 : Nat) : TaskInstance :=
  { ti with status := .running, start_time := some t1 }

/-- The in-memory mutations of lines 74/78/83 and 87: final status from the
external-call outcome, end time stamped. -/
def finishInstance (ti : TaskInstance) (s : Status) (t2 : Nat) : TaskInstance :=
  { ti with status := s, end_time := some t2 }

/-- The document persisted on line 67 of `dag_runner.py`: the loaded
document with instance `i` set RUNNING and its start time stamped. -/
def execDocStart (m : RunMetadata) (i : Nat) (ti : TaskInstance) (t1 : Nat) :
    RunMetadata :=
  { m with task_instances := m.task_instances.set i (startInstance ti t1) }

/-- The document persisted on line 88 of `dag_runner.py`: the loaded
document with instance `i` carrying the outcome status and both
timestamps. -/
def execDocFinish (m : RunMetadata) (i : Nat) (ti : TaskInstance)
    (res : ExecResult) (t1 t2 : Nat) : RunMetadata :=
  let ti2 := finishInstance (startInstance ti t1) (execOutcomeStatus res) t2
  { m with task_instances := m.task_instances.set i ti2 }

/-- `DAGExecutor._execute_task` (`dag_runner.py` lines 55-89) as the ordered
trace of its observable effects.  `store` is the document returned by
`_get_run_metadata_from_gcs` (None when the load fails), `i` the
`task_instance_id` argument, `res` the external-call outcome, `t1`/`t2` the
two clock readings.  A missing instance index raises `IndexError` before any
effect; a missing task in the DAG raises `AttributeError` at the logger call
on line 68, after the RUNNING persist of line 67. -/
def executeTask (dag : DAG) (run_id : String) (store : Option RunMetadata)
    (i : Nat) (res : ExecResult) (t1 t2 : Nat) : List Ev :=
  match store with
  | none =>
      [.logError ("Could not retrieve metadata for run " ++ run_id
        ++ " to execute task " ++ toString i)]
  | some m =>
    match m.task_instances[i]? with
    | none => []
    | some ti =>
      match dag.get_task ti.task_id with
      | none => [.persistDoc (execDocStart m i ti t1)]
      | some tk =>
        [.persistDoc (execDocStart m i ti t1),
         .logInfo ("Task " ++ tk.task_id ++ " of run " ++ run_id ++ " started."),
         execResultLogEv tk run_id res,
         .persistDoc (execDocFinish m i ti res t1 t2),
         .writeLog ti.log_file_path (execLogContent tk res)]

theorem lt_length_of_getElem?_eq_some {α : Type _} {l : List α} {i : Nat}
    {a : α} (h : l[i]? = some a) : i < l.length := by
  rcases List.getElem?_eq_some.mp h with ⟨h1, -⟩
  exact h1

theorem getElem?_set_self_of_some {α : Type _} {l : List α} {i : Nat}
    {a b : α} (h : l[i]? = some a) : (l.set i b)[i]? = some b :=
  List.getElem?_set_self (lt_length_of_getElem?_eq_some h)

theorem getElem?_set_other {α : Type _} (l : List α) (i j : Nat) (b : α)
    (h : j ≠ i) : (l.set i b)[j]? = l[j]? :=
  List.getElem?_set_ne (fun he => h he.symm)

/-- C5: on every exit path of the external call — success, failure return, or
raise — `_execute_task` ends by stamping the instance's `end_time`,
persisting the full run document, and then writing the captured log text at
the instance's log path, in that order (the `finally` block of
`dag_runner.py` lines 86-89). -/
theorem execute_task_finalizes (dag : DAG) (run_id : String) (m : RunMetadata)
    (i : Nat) (res : ExecResult) (t1 t2 : Nat) (ti : TaskInstance) (tk : Task)
    (h1 : m.task_instances[i]? = some ti)
    (h2 : dag.get_task ti.task_id = some tk) :
    ∃ evPre ti2,
      executeTask dag run_id (some m) i res t1 t2
          = evPre ++ [.persistDoc (execDocFinish m i ti res t1 t2),
              .writeLog ti.log_file_path (execLogContent tk res)]
        ∧ (execDocFinish m i ti res t1 t2).task_instances[i]? = some ti2
        ∧ ti2.end_time = some t2
        ∧ ti2.status = execOutcomeStatus res := by
  refine ⟨[.persistDoc (execDocStart m i ti t1),
           .logInfo ("Task " ++ tk.task_id ++ " of run " ++ run_id ++ " started."),
           execResultLogEv tk run_id res],
          finishInstance (startInstance ti t1) (execOutcomeStatus res) t2,
          ?_, ?_, rfl, rfl⟩
  · simp [executeTask, h1, h2]
  · exact getElem?_set_self_of_some h1

/-- Concrete data used by the witness theorems. -/
def wTask : Task := { task_id := "t1", bigquery_query := "SELECT 2", depends_on := [] }

/-- A registered one-task DAG used by the witness theorems. -/
def wDag : DAG := { dag_id := "wd", schedule_interval := none, tasks := [wTask] }

/-- The initial run document of `wDag` used by the witness theorems. -/
def wMeta : RunMetadata := getInitialRunMetadata wDag "r1" 0

/-- The initial task instance of `wDag`. -/
def wInst : TaskInstance := initialTaskInstance "wd" "r1" wTask

theorem execute_task_finalizes_witness :
    wMeta.task_instances[0]? = some wInst
      ∧ wDag.get_task wInst.task_id = some wTask
      ∧ ∃ evPre ti2,
          executeTask wDag "r1" (some wMeta) 0 (.ok 5) 1 2
              = evPre ++ [.persistDoc (execDocFinish wMeta 0 wInst (.ok 5) 1 2),
                  .writeLog wInst.log_file_path (execLogContent wTask (.ok 5))]
            ∧ (execDocFinish wMeta 0 wInst (.ok 5) 1 2).task_instances[0]? = some ti2
            ∧ ti2.end_time = some 2
            ∧ ti2.status = execOutcomeStatus (.ok 5) :=
  ⟨by decide, by decide,
    execute_task_finalizes wDag "r1" wMeta 0 (.ok 5) 1 2 wInst wTask (by decide) (by decide)⟩

/-- C8: on every failure path of task execution — external call returns
failure, external call raises, or the run document fails to load — a logger
entry describing the error is emitted, and it is emitted strictly before any
store write that marks the instance FAILED; no failure path is silent. -/
theorem execute_task_error_logged_before_failed_persist (dag : DAG)
    (run_id : String) (store : Option RunMetadata) (i : Nat) (res : ExecResult)
    (t1 t2 : Nat)
    (hfail : store = none
      ∨ ∃ m ti tk, store = some m ∧ m.task_instances[i]? = some ti
          ∧ dag.get_task ti.task_id = some tk
          ∧ ∃ msg, res = .err msg ∨ res = .exn msg) :
    (∃ (k : Nat) (s : String),
        (executeTask dag run_id store i res t1 t2)[k]? = some (Ev.logError s))
      ∧ ∀ (n : Nat) (m' : RunMetadata),
          (executeTask dag run_id store i res t1 t2)[n]? = some (Ev.persistDoc m')
          → (∃ t, m'.task_instances[i]? = some t ∧ t.status = .failed)
          → ∃ (k : Nat) (s : String), k < n
              ∧ (executeTask dag run_id store i res t1 t2)[k]? = some (Ev.logError s) := by
  rcases hfail with hnone | ⟨m, ti, tk, hm, h1, h2, msg, hres⟩
  · subst hnone
    constructor
    · exact ⟨0, _, rfl⟩
    · intro n m' hn
      rcases n with _ | n <;> simp [executeTask] at hn
  · subst hm
    have hrun : (m.task_instances.set i (startInstance ti t1))[i]?
        = some (startInstance ti t1) := getElem?_set_self_of_some h1
    rcases hres with hres | hres <;> subst hres <;> constructor
    case _ =>
      exact ⟨2, ("Task " ++ tk.task_id ++ " of run " ++ run_id ++ " failed: " ++ msg), by simp [executeTask, h1, h2, execResultLogEv]⟩
    case _ =>
      intro n m' hn hfailed
      rcases n with _ | _ | _ | _ | _ | n <;>
        simp [executeTask, h1, h2, execResultLogEv] at hn
      · rcases hfailed with ⟨t, ht, hst⟩
        rw [← hn] at ht
        simp only [execDocStart, hrun] at ht
        cases ht
        simp [startInstance] at hst
      · exact ⟨2, ("Task " ++ tk.task_id ++ " of run " ++ run_id ++ " failed: " ++ msg), by norm_num, by simp [executeTask, h1, h2, execResultLogEv]⟩
    case _ =>
      exact ⟨2, ("Unhandled exception during task " ++ tk.task_id ++ " execution in run " ++ run_id), by simp [executeTask, h1, h2, execResultLogEv]⟩
    case _ =>
      intro n m' hn hfailed
      rcases n with _ | _ | _ | _ | _ | n <;>
        simp [executeTask, h1, h2, execResultLogEv] at hn
      · rcases hfailed with ⟨t, ht, hst⟩
        rw [← hn] at ht
        simp only [execDocStart, hrun] at ht
        cases ht
        simp [startInstance] at hst
      · exact ⟨2, ("Unhandled exception during task " ++ tk.task_id ++ " execution in run " ++ run_id), by norm_num, by simp [executeTask, h1, h2, execResultLogEv]⟩

theorem execute_task_error_logged_witness :
    ((some wMeta : Option RunMetadata) = none
      ∨ ∃ m ti tk, (some wMeta : Option RunMetadata) = some m
          ∧ m.task_instances[0]? = some ti
          ∧ wDag.get_task ti.task_id = some tk
          ∧ ∃ msg, (ExecResult.err "boom") = .err msg ∨ (ExecResult.err "boom") = .exn msg)
      ∧ ((∃ (k : Nat) (s : String),
            (executeTask wDag "r1" (some wMeta) 0 (.err "boom") 1 2)[k]?
              = some (Ev.logError s))
        ∧ ∀ (n : Nat) (m' : RunMetadata),
            (executeTask wDag "r1" (some wMeta) 0 (.err "boom") 1 2)[n]?
              = some (Ev.persistDoc m')
            → (∃ t, m'.task_instances[0]? = some t ∧ t.status = .failed)
            → ∃ (k : Nat) (s : String), k < n
                ∧ (executeTask wDag "r1" (some wMeta) 0 (.err "boom") 1 2)[k]?
                    = some (Ev.logError s)) :=
  ⟨Or.inr ⟨wMeta, wInst, wTask, rfl, by decide, by decide, "boom", Or.inl rfl⟩,
    execute_task_error_logged_before_failed_persist wDag "r1" (some wMeta) 0
      (.err "boom") 1 2
      (Or.inr ⟨wMeta, wInst, wTask, rfl, by decide, by decide, "boom", Or.inl rfl⟩)⟩

/-- C10: the task executor's writes are frame-respecting: every document it
persists differs from the snapshot it loaded only in the `status`,
`start_time` and `end_time` fields of instance `i` — all run-level fields
and every other instance are unchanged — and the only log blob it writes is
instance `i`'s `log_file_path`.  It never submits work to the pool. -/
theorem execute_task_frame (dag : DAG) (run_id : String) (m : RunMetadata)
    (i : Nat) (res : ExecResult) (t1 t2 : Nat) (ti : TaskInstance) (tk : Task)
    (h1 : m.task_instances[i]? = some ti)
    (h2 : dag.get_task ti.task_id = some tk) :
    ∀ ev ∈ executeTask dag run_id (some m) i res t1 t2,
      (∀ m', ev = Ev.persistDoc m' →
          m'.dag_id = m.dag_id ∧ m'.run_id = m.run_id
            ∧ m'.start_time = m.start_time ∧ m'.end_time = m.end_time
            ∧ m'.status = m.status
            ∧ (∀ j, j ≠ i → m'.task_instances[j]? = m.task_instances[j]?)
            ∧ ∃ t', m'.task_instances[i]? = some t' ∧ t'.task_id = ti.task_id
                ∧ t'.log_file_path = ti.log_file_path
                ∧ t'.depends_on = ti.depends_on)
        ∧ (∀ p c, ev = Ev.writeLog p c → p = ti.log_file_path)
        ∧ (∀ k, ev ≠ Ev.submitTask k) := by
  intro ev hev
  simp only [executeTask, h1, h2, List.mem_cons, List.mem_singleton,
    List.not_mem_nil, or_false] at hev
  rcases hev with h | h | h | h | h <;> subst h
  · refine ⟨?_, ?_, ?_⟩
    · intro m' he
      cases he
      refine ⟨rfl, rfl, rfl, rfl, rfl, ?_, ?_⟩
      · intro j hj
        exact getElem?_set_other _ i j _ hj
      · exact ⟨startInstance ti t1, getElem?_set_self_of_some h1, rfl, rfl, rfl⟩
    · intro p c hpc
      cases hpc
    · intro k hk
      cases hk
  · refine ⟨?_, ?_, ?_⟩
    · intro m' he
      cases he
    · intro p c hpc
      cases hpc
    · intro k hk
      cases hk
  · refine ⟨?_, ?_, ?_⟩ <;> cases res <;>
      simp [execResultLogEv]
  · refine ⟨?_, ?_, ?_⟩
    · intro m' he
      cases he
      refine ⟨rfl, rfl, rfl, rfl, rfl, ?_, ?_⟩
      · intro j hj
        exact getElem?_set_other _ i j _ hj
      · exact ⟨finishInstance (startInstance ti t1) (execOutcomeStatus res) t2,
          getElem?_set_self_of_some h1, rfl, rfl, rfl⟩
    · intro p c hpc
      cases hpc
    · intro k hk
      cases hk
  · refine ⟨?_, ?_, ?_⟩
    · intro m' he
      cases he
    · intro p c hpc
      cases hpc
      rfl
    · intro k hk
      cases hk

theorem execute_task_frame_witness :
    wMeta.task_instances[0]? = some wInst
      ∧ wDag.get_task wInst.task_id = some wTask
      ∧ ∀ ev ∈ executeTask wDag "r1" (some wMeta) 0 (.exn "kaboom") 1 2,
          (∀ m', ev = Ev.persistDoc m' →
              m'.dag_id = wMeta.dag_id ∧ m'.run_id = wMeta.run_id
                ∧ m'.start_time = wMeta.start_time ∧ m'.end_time = wMeta.end_time
                ∧ m'.status = wMeta.status
                ∧ (∀ j, j ≠ 0 → m'.task_instances[j]? = wMeta.task_instances[j]?)
                ∧ ∃ t', m'.task_instances[0]? = some t' ∧ t'.task_id = wInst.task_id
                    ∧ t'.log_file_path = wInst.log_file_path
                    ∧ t'.depends_on = wInst.depends_on)
            ∧ (∀ p c, ev = Ev.writeLog p c → p = wInst.log_file_path)
            ∧ (∀ k, ev ≠ Ev.submitTask k) :=
  ⟨by decide, by decide,
    execute_task_frame wDag "r1" wMeta 0 (.exn "kaboom") 1 2 wInst wTask
      (by decide) (by decide)⟩

/-- The dependency check of `_monitor_dag_run` lines 122-128, including its
early break at the first non-SUCCESS dependency and the `KeyError` /
`IndexError` crash (modelled as `none`) when a dependency id is missing from
`task_id_to_idx` / the instance list.  `ids` is the `task_id` order of the
initial metadata, from which `task_id_to_idx` is built on line 98. -/
def depsMet (ids : List String) (cur : List TaskInstance) :
    List String → Option Bool
  | [] => some true
  | d :: rest =>
    match List.findIdx? (fun x => x == d) ids with
    | none => none
    | some j =>
      match cur[j]? with
      | none => none
      | some t =>
        if t.status = .success then depsMet ids cur rest else some false

/-- Mutable state of one pass of the task loop of `_monitor_dag_run`
(lines 106-137): the (possibly mutated) instance list, the events emitted so
far, the indices dispatched so far, the keys of `self.futures`, and the
`all_tasks_completed` / `run_failed` flags. -/
structure CycleAcc where
  cur : List TaskInstance
  evs : List Ev
  disp : List Nat
  futKeys : List String
  allC : Bool
  runF : Bool
deriving Repr

/-- One pass of the task loop of `_monitor_dag_run` (lines 110-137),
iterating positions `pos, pos+1, ...` with `fuel` positions left to visit.
A FAILED instance breaks the loop setting both flags (lines 113-116); a
SUCCESS instance is skipped; otherwise `all_tasks_completed` is cleared and,
if the dependencies are met, the instance is QUEUED and the futures guard of
line 132 passes, the task is submitted, marked PENDING, and the document
persisted immediately (lines 133-137).  `md` carries the run-level fields of
the loaded document.  `none` models the thread dying on a `KeyError`. -/
def cycleAux (ids : List String) (futd : String → Bool) (md : RunMetadata) :
    Nat → Nat → CycleAcc → Option CycleAcc
  | 0, _, acc => some acc
  | fuel + 1, pos, acc =>
    match acc.cur[pos]? with
    | none => some acc
    | some ti =>
      if ti.status = .failed then
        some { acc with allC := true, runF := true }
      else if ti.status = .success then
        cycleAux ids futd md fuel (pos + 1) acc
      else
        match depsMet ids acc.cur ti.depends_on with
        | none => none
        | some dm =>
          if dm ∧ ti.status = .queued
              ∧ (¬ acc.futKeys.contains ti.task_id ∨ futd ti.task_id) then
            let cur2 := acc.cur.set pos { ti with status := .pending }
            cycleAux ids futd md fuel (pos + 1)
              { cur := cur2
                evs := acc.evs
                  ++ [.logInfo ("Scheduling task " ++ ti.task_id ++ " for run "
                        ++ md.run_id),
                      .submitTask pos,
                      .persistDoc { md with task_instances := cur2 }]
                disp := acc.disp ++ [pos]
                futKeys := acc.futKeys ++ [ti.task_id]
                allC := false
                runF := acc.runF }
          else
            cycleAux ids futd md fuel (pos + 1) { acc with allC := false }

/-- How one polling cycle of `_monitor_dag_run` ends: run marked FAILED and
loop exited (lines 139-144), run marked SUCCESS and loop exited
(lines 146-151), or sleep and poll again (line 153). -/
inductive CycleOutcome where
  | failedExit
  | successExit
  | continueLoop
deriving DecidableEq, Repr

/-- Result of one polling cycle: the outcome, the in-memory document at loop
exit (persisted when the outcome is terminal), the events in program order,
the dispatched indices, and the updated futures keys. -/
structure CycleResult where
  outcome : CycleOutcome
  doc : RunMetadata
  evs : List Ev
  disp : List Nat
  futKeys : List String
deriving Repr

/-- One full polling cycle of `_monitor_dag_run` (lines 100-153) on a loaded
snapshot `md`: run the task loop from position 0, then apply the run-level
failure / completion exits.  `now` is the clock reading used for the
`end_time` stamp. -/
def monitorCycle (ids : List String) (futd : String → Bool)
    (futKeys : List String) (md : RunMetadata) (now : Nat) :
    Option CycleResult :=
  match cycleAux ids futd md md.task_instances.length 0
      { cur := md.task_instances, evs := [], disp := [], futKeys := futKeys,
        allC := true, runF := false } with
  | none => none
  | some acc =>
    if acc.runF then
      let fin : RunMetadata :=
        { md with task_instances := acc.cur, status := .failed, end_time := some now }
      some { outcome := .failedExit, doc := fin,
             evs := acc.evs ++ [.persistDoc fin], disp := acc.disp,
             futKeys := acc.futKeys }
    else if acc.allC then
      let fin : RunMetadata :=
        { md with task_instances := acc.cur, status := .success, end_time := some now }
      some { outcome := .successExit, doc := fin,
             evs := acc.evs ++ [.persistDoc fin], disp := acc.disp,
             futKeys := acc.futKeys }
    else
      some { outcome := .continueLoop,
             doc := { md with task_instances := acc.cur },
             evs := acc.evs, disp := acc.disp, futKeys := acc.futKeys }

/-- C9: for a DAG with an empty task list, the very first scheduler cycle —
run on the freshly created initial metadata — exits with overall status
SUCCESS and a stamped end time, dispatching nothing: the
`all_tasks_completed` check is vacuously true over zero instances. -/
theorem empty_dag_first_cycle_success (dag : DAG) (run_id : String)
    (futd : String → Bool) (t0 t1 : Nat) (hempty : dag.tasks = []) :
    ∃ r, monitorCycle
          ((getInitialRunMetadata dag run_id t0).task_instances.map (fun t => t.task_id))
          futd [] (getInitialRunMetadata dag run_id t0) t1 = some r
        ∧ r.outcome = .successExit
        ∧ r.disp = []
        ∧ r.doc.status = .success
        ∧ r.doc.end_time = some t1 := by
  have hmd : getInitialRunMetadata dag run_id t0
      = { dag_id := dag.dag_id, run_id := run_id, start_time := some t0,
          end_time := none, status := .running, task_instances := [] } := by
    simp [getInitialRunMetadata, hempty]
  rw [hmd]
  exact ⟨_, rfl, rfl, rfl, rfl, rfl⟩

theorem empty_dag_first_cycle_success_witness :
    (DAG.mk "freeDag" none []).tasks = []
      ∧ ∃ r, monitorCycle
            ((getInitialRunMetadata (DAG.mk "freeDag" none []) "r9" 3).task_instances.map
              (fun t => t.task_id))
            (fun _ => false) [] (getInitialRunMetadata (DAG.mk "freeDag" none []) "r9" 3) 4
            = some r
          ∧ r.outcome = .successExit
          ∧ r.disp = []
          ∧ r.doc.status = .success
          ∧ r.doc.end_time = some 4 :=
  ⟨rfl, empty_dag_first_cycle_success (DAG.mk "freeDag" none []) "r9"
    (fun _ => false) 3 4 rfl⟩

/-- Relation between the loaded snapshot and the task loop's mutated view:
each position is either untouched, or was QUEUED in the snapshot and has been
marked PENDING by a dispatch this cycle (line 136 is the only in-loop
mutation). -/
def pendShadow (a b : Option TaskInstance) : Prop :=
  b = a ∨ ∃ t, a = some t ∧ t.status = .queued ∧ b = some { t with status := .pending }

/-- Pointwise `pendShadow` between snapshot and mutated list. -/
def Rel (snap cur : List TaskInstance) : Prop :=
  ∀ j : Nat, pendShadow snap[j]? cur[j]?

theorem Rel.refl (snap : List TaskInstance) : Rel snap snap :=
  fun _ => Or.inl rfl

theorem Rel.set (snap cur : List TaskInstance) (pos : Nat) (ti : TaskInstance)
    (hrel : Rel snap cur) (hcur : cur[pos]? = some ti)
    (hq : ti.status = .queued) :
    Rel snap (cur.set pos { ti with status := .pending }) := by
  intro j
  by_cases hj : j = pos
  · subst hj
    rcases hrel j with heq | ⟨t, ha, htq, hb⟩
    · rw [hcur] at heq
      right
      exact ⟨ti, heq.symm, hq, getElem?_set_self_of_some hcur⟩
    · rw [hcur] at hb
      cases hb
      simp at hq
  · rw [getElem?_set_other _ pos j _ hj]
    exact hrel j

theorem Rel.success_transfer {snap cur : List TaskInstance} (hrel : Rel snap cur)
    {j : Nat} {t : TaskInstance} (hc : cur[j]? = some t)
    (hs : t.status = .success) :
    ∃ t0, snap[j]? = some t0 ∧ t0.status = .success := by
  rcases hrel j with heq | ⟨t0, ha, htq, hb⟩
  · exact ⟨t, heq ▸ hc, hs⟩
  · rw [hc] at hb
    cases hb
    simp at hs

theorem Rel.failed_transfer {snap cur : List TaskInstance} (hrel : Rel snap cur)
    {j : Nat} {t : TaskInstance} (hc : cur[j]? = some t)
    (hs : t.status = .failed) :
    ∃ t0, snap[j]? = some t0 ∧ t0.status = .failed := by
  rcases hrel j with heq | ⟨t0, ha, htq, hb⟩
  · exact ⟨t, heq ▸ hc, hs⟩
  · rw [hc] at hb
    cases hb
    simp at hs

theorem Rel.failed_transfer_back {snap cur : List TaskInstance}
    (hrel : Rel snap cur) {j : Nat} {t : TaskInstance}
    (hc : snap[j]? = some t) (hs : t.status = .failed) :
    ∃ t1, cur[j]? = some t1 ∧ t1.status = .failed := by
  rcases hrel j with heq | ⟨t0, ha, htq, hb⟩
  · exact ⟨t, heq.trans hc, hs⟩
  · rw [hc] at ha
    cases ha
    rw [htq] at hs
    cases hs

theorem Rel.not_failed_transfer {snap cur : List TaskInstance}
    (hrel : Rel snap cur) {j : Nat} {t : TaskInstance}
    (hc : cur[j]? = some t) (hs : t.status ≠ .failed) :
    ∀ t0, snap[j]? = some t0 → t0.status ≠ .failed := by
  intro t0 h0 hf0
  rcases Rel.failed_transfer_back hrel h0 hf0 with ⟨t1, h1, hf1⟩
  rw [hc] at h1
  cases h1
  exact hs hf1

theorem Rel.none_transfer {snap cur : List TaskInstance} (hrel : Rel snap cur)
    {j : Nat} (hc : cur[j]? = none) : snap[j]? = none := by
  rcases hrel j with heq | ⟨t0, ha, htq, hb⟩
  · exact heq ▸ hc
  · rw [hc] at hb
    cases hb

/-- Unfolding of `depsMet` on `some true`: every dependency id resolves to an
index whose current instance is SUCCESS. -/
theorem depsMet_true_spec (ids : List String) (cur : List TaskInstance) :
    ∀ ds, depsMet ids cur ds = some true →
      ∀ d ∈ ds, ∃ j tj, List.findIdx? (fun x => x == d) ids = some j
        ∧ cur[j]? = some tj ∧ tj.status = .success := by
  intro ds
  induction ds with
  | nil =>
    intro _ d hd
    cases hd
  | cons d0 rest ih =>
    intro h d hd
    rw [depsMet] at h
    split at h
    · exact Option.noConfusion h
    · rename_i j hidx
      split at h
      · exact Option.noConfusion h
      · rename_i t hcur
        by_cases hst : t.status = .success
        · rw [if_pos hst] at h
          rcases List.mem_cons.mp hd with hdeq | hdrest
          · subst hdeq
            exact ⟨j, t, hidx, hcur, hst⟩
          · exact ih h d hdrest
        · rw [if_neg hst] at h
          cases h

/-- The task loop only ever rewrites a QUEUED instance to PENDING, so the
`pendShadow` relation with the loaded snapshot is preserved. -/
theorem cycleAux_rel (ids : List String) (futd : String → Bool)
    (md : RunMetadata) (snap : List TaskInstance) :
    ∀ (fuel pos : Nat) (acc acc' : CycleAcc), Rel snap acc.cur →
      cycleAux ids futd md fuel pos acc = some acc' → Rel snap acc'.cur := by
  intro fuel
  induction fuel with
  | zero =>
    intro pos acc acc' hrel h
    rw [cycleAux] at h
    cases h
    exact hrel
  | succ fuel ih =>
    intro pos acc acc' hrel h
    rw [cycleAux] at h
    split at h
    · cases h
      exact hrel
    · rename_i ti hcur
      split at h
      · cases h
        exact hrel
      · split at h
        · exact ih (pos + 1) acc acc' hrel h
        · split at h
          · exact Option.noConfusion h
          · rename_i dm hdm
            split at h
            · rename_i hcond
              refine ih (pos + 1) _ acc' ?_ h
              exact Rel.set snap acc.cur pos ti hrel hcur hcond.2.1
            · refine ih (pos + 1) _ acc' ?_ h
              exact hrel

/-- If every current instance is SUCCESS the task loop is a no-op: nothing
is dispatched, no flag changes, no event is emitted. -/
theorem cycleAux_all_success (ids : List String) (futd : String → Bool)
    (md : RunMetadata) :
    ∀ (fuel pos : Nat) (acc : CycleAcc),
      (∀ (j : Nat) (t : TaskInstance), acc.cur[j]? = some t → t.status = .success) →
      cycleAux ids futd md fuel pos acc = some acc := by
  intro fuel
  induction fuel with
  | zero =>
    intro pos acc _
    rw [cycleAux]
  | succ fuel ih =>
    intro pos acc hall
    rw [cycleAux]
    cases hcur : acc.cur[pos]? with
    | none => rfl
    | some ti =>
      have hs : ti.status = .success := hall pos ti hcur
      simp only [hs]
      exact ih (pos + 1) acc hall

/-- `all_tasks_completed`, once cleared, can only be set again by the FAILED
break (which also sets `run_failed`). -/
theorem cycleAux_allC_false (ids : List String) (futd : String → Bool)
    (md : RunMetadata) :
    ∀ (fuel pos : Nat) (acc acc' : CycleAcc),
      cycleAux ids futd md fuel pos acc = some acc' →
      acc.allC = false → acc'.allC = true → acc'.runF = true := by
  intro fuel
  induction fuel with
  | zero =>
    intro pos acc acc' h hfalse htrue
    rw [cycleAux] at h
    cases h
    rw [hfalse] at htrue
    cases htrue
  | succ fuel ih =>
    intro pos acc acc' h hfalse htrue
    rw [cycleAux] at h
    split at h
    · cases h
      rw [hfalse] at htrue
      cases htrue
    · rename_i ti hcur
      split at h
      · cases h
        rfl
      · split at h
        · exact ih (pos + 1) acc acc' h hfalse htrue
        · split at h
          · exact Option.noConfusion h
          · split at h
            · exact ih (pos + 1) _ acc' h rfl htrue
            · exact ih (pos + 1) _ acc' h rfl htrue

/-- If the task loop ends with `run_failed` still false and
`all_tasks_completed` still true, it was a no-op pass over instances that
are all SUCCESS from the visited position on. -/
theorem cycleAux_success_analysis (ids : List String) (futd : String → Bool)
    (md : RunMetadata) :
    ∀ (fuel pos : Nat) (acc acc' : CycleAcc), acc.cur.length ≤ pos + fuel →
      cycleAux ids futd md fuel pos acc = some acc' →
      acc'.runF = false → acc'.allC = true →
      acc' = acc
        ∧ ∀ (j : Nat) (t : TaskInstance), pos ≤ j → acc.cur[j]? = some t →
            t.status = .success := by
  intro fuel
  induction fuel with
  | zero =>
    intro pos acc acc' hlen h hrf hac
    rw [cycleAux] at h
    cases h
    refine ⟨rfl, ?_⟩
    intro j t hj hget
    rw [List.getElem?_eq_none_iff.mpr (le_trans (by simpa using hlen) hj)] at hget
    cases hget
  | succ fuel ih =>
    intro pos acc acc' hlen h hrf hac
    rw [cycleAux] at h
    split at h
    · rename_i hcur
      cases h
      refine ⟨rfl, ?_⟩
      intro j t hj hget
      have hlenp : acc.cur.length ≤ pos := List.getElem?_eq_none_iff.mp hcur
      rw [List.getElem?_eq_none_iff.mpr (le_trans hlenp hj)] at hget
      cases hget
    · rename_i ti hcur
      split at h
      · cases h
        cases hrf
      · rename_i hnf
        split at h
        · rename_i hsucc
          rcases ih (pos + 1) acc acc' (by omega) h hrf hac with ⟨heq, hrest⟩
          refine ⟨heq, ?_⟩
          intro j t hj hget
          rcases Nat.eq_or_lt_of_le hj with hje | hjl
          · rw [← hje] at hget
            rw [hcur] at hget
            cases hget
            exact hsucc
          · exact hrest j t hjl hget
        · rename_i hnsucc
          split at h
          · exact Option.noConfusion h
          · split at h
            · have := cycleAux_allC_false ids futd md fuel (pos + 1) _ acc' h rfl hac
              rw [hrf] at this
              cases this
            · have := cycleAux_allC_false ids futd md fuel (pos + 1) _ acc' h rfl hac
              rw [hrf] at this
              cases this

/-- Dispatch soundness: every index newly dispatched by the task loop was
QUEUED in the loaded snapshot and had every dependency SUCCESS in the loaded
snapshot. -/
theorem cycleAux_disp_sound (ids : List String) (futd : String → Bool)
    (md : RunMetadata) (snap : List TaskInstance) :
    ∀ (fuel pos : Nat) (acc acc' : CycleAcc), Rel snap acc.cur →
      cycleAux ids futd md fuel pos acc = some acc' →
      ∀ p ∈ acc'.disp, p ∈ acc.disp
        ∨ ∃ ti, snap[p]? = some ti ∧ ti.status = .queued
            ∧ ∀ d ∈ ti.depends_on, ∃ j tj,
                List.findIdx? (fun x => x == d) ids = some j
                  ∧ snap[j]? = some tj ∧ tj.status = .success := by
  intro fuel
  induction fuel with
  | zero =>
    intro pos acc acc' hrel h p hp
    rw [cycleAux] at h
    cases h
    exact Or.inl hp
  | succ fuel ih =>
    intro pos acc acc' hrel h p hp
    rw [cycleAux] at h
    split at h
    · cases h
      exact Or.inl hp
    · rename_i ti hcur
      split at h
      · cases h
        exact Or.inl hp
      · split at h
        · exact ih (pos + 1) acc acc' hrel h p hp
        · split at h
          · exact Option.noConfusion h
          · rename_i dm hdm
            split at h
            · rename_i hcond
              have hrel2 := Rel.set snap acc.cur pos ti hrel hcur hcond.2.1
              rcases ih (pos + 1) _ acc' hrel2 h p hp with hmem | hgood
              · rcases List.mem_append.mp hmem with hpd | hppos
                · exact Or.inl hpd
                · have hppos' : p = pos := by simpa using hppos
                  subst hppos'
                  right
                  have hsnap : snap[p]? = some ti := by
                    rcases hrel p with heq | ⟨t, ha, htq, hb⟩
                    · rw [← heq, hcur]
                    · rw [hcur] at hb
                      cases hb
                      exact absurd hcond.2.1 (by simp)
                  refine ⟨ti, hsnap, hcond.2.1, ?_⟩
                  intro d hd
                  have hdm_true : depsMet ids acc.cur ti.depends_on = some true := by
                    rw [hdm, hcond.1]
                  rcases depsMet_true_spec ids acc.cur ti.depends_on hdm_true d hd
                    with ⟨j, tj, hidx, hj, hjs⟩
                  rcases Rel.success_transfer hrel hj hjs with ⟨t0, h0, h0s⟩
                  exact ⟨j, t0, hidx, h0, h0s⟩
              · exact Or.inr hgood
            · exact ih (pos + 1) { acc with allC := false } acc' hrel h p hp

/-- Failed-break analysis: when the task loop raises `run_failed`, there is
a first FAILED instance (at or after the start position) in the loaded
snapshot, and every index dispatched this pass lies strictly before it. -/
theorem cycleAux_failed_analysis (ids : List String) (futd : String → Bool)
    (md : RunMetadata) (snap : List TaskInstance) :
    ∀ (fuel pos : Nat) (acc acc' : CycleAcc), Rel snap acc.cur →
      cycleAux ids futd md fuel pos acc = some acc' →
      acc.runF = false → acc'.runF = true →
      ∃ q t, pos ≤ q ∧ snap[q]? = some t ∧ t.status = .failed
        ∧ (∀ (j : Nat) (t' : TaskInstance), pos ≤ j → j < q →
            snap[j]? = some t' → t'.status ≠ .failed)
        ∧ ∀ p ∈ acc'.disp, p ∈ acc.disp ∨ (pos ≤ p ∧ p < q) := by
  intro fuel
  induction fuel with
  | zero =>
    intro pos acc acc' hrel h hrf0 hrf1
    rw [cycleAux] at h
    cases h
    rw [hrf0] at hrf1
    cases hrf1
  | succ fuel ih =>
    intro pos acc acc' hrel h hrf0 hrf1
    rw [cycleAux] at h
    split at h
    · cases h
      rw [hrf0] at hrf1
      cases hrf1
    · rename_i ti hcur
      split at h
      · rename_i hf
        cases h
        rcases Rel.failed_transfer hrel hcur hf with ⟨t0, hsnap, hf0⟩
        refine ⟨pos, t0, le_refl pos, hsnap, hf0, ?_, ?_⟩
        · intro j t' hj hjq
          omega
        · intro p hp
          exact Or.inl hp
      · rename_i hnf
        split at h
        · rename_i hsucc
          rcases ih (pos + 1) acc acc' hrel h hrf0 hrf1
            with ⟨q, t, hq, hsnap, hfq, hmin, hdisp⟩
          refine ⟨q, t, by omega, hsnap, hfq, ?_, ?_⟩
          · intro j t' hj hjq hget
            rcases Nat.eq_or_lt_of_le hj with hje | hjl
            · subst hje
              rcases Rel.success_transfer hrel hcur hsucc with ⟨t0, h0, h0s⟩
              rw [hget] at h0
              cases h0
              rw [h0s]
              intro hc
              cases hc
            · exact hmin j t' hjl hjq hget
          · intro p hp
            rcases hdisp p hp with hpd | ⟨hp1, hp2⟩
            · exact Or.inl hpd
            · exact Or.inr ⟨by omega, hp2⟩
        · rename_i hnsucc
          split at h
          · exact Option.noConfusion h
          · split at h
            · rename_i hcond
              have hrel2 := Rel.set snap acc.cur pos ti hrel hcur hcond.2.1
              rcases ih (pos + 1) _ acc' hrel2 h hrf0 hrf1
                with ⟨q, t, hq, hsnap, hfq, hmin, hdisp⟩
              refine ⟨q, t, by omega, hsnap, hfq, ?_, ?_⟩
              · intro j t' hj hjq hget
                rcases Nat.eq_or_lt_of_le hj with hje | hjl
                · subst hje
                  exact Rel.not_failed_transfer hrel hcur
                    (by rw [hcond.2.1]; intro hc; cases hc) t' hget
                · exact hmin j t' hjl hjq hget
              · intro p hp
                rcases hdisp p hp with hpd | ⟨hp1, hp2⟩
                · rcases List.mem_append.mp hpd with hpa | hppos
                  · exact Or.inl hpa
                  · have : p = pos := by simpa using hppos
                    subst this
                    exact Or.inr ⟨le_refl p, by omega⟩
                · exact Or.inr ⟨by omega, hp2⟩
            · rcases ih (pos + 1) { acc with allC := false } acc' hrel h hrf0 hrf1
                with ⟨q, t, hq, hsnap, hfq, hmin, hdisp⟩
              refine ⟨q, t, by omega, hsnap, hfq, ?_, ?_⟩
              · intro j t' hj hjq hget
                rcases Nat.eq_or_lt_of_le hj with hje | hjl
                · subst hje
                  exact Rel.not_failed_transfer hrel hcur hnf t' hget
                · exact hmin j t' hjl hjq hget
              · intro p hp
                rcases hdisp p hp with hpd | ⟨hp1, hp2⟩
                · exact Or.inl hpd
                · exact Or.inr ⟨by omega, hp2⟩

/-- If the loaded snapshot holds a FAILED instance within the positions the
task loop will still visit, the loop ends with `run_failed` set. -/
theorem cycleAux_finds_failed (ids : List String) (futd : String → Bool)
    (md : RunMetadata) (snap : List TaskInstance) :
    ∀ (fuel pos : Nat) (acc acc' : CycleAcc), Rel snap acc.cur →
      cycleAux ids futd md fuel pos acc = some acc' →
      acc.runF = false →
      (∃ q t, pos ≤ q ∧ q < pos + fuel ∧ snap[q]? = some t ∧ t.status = .failed) →
      acc'.runF = true := by
  intro fuel
  induction fuel with
  | zero =>
    intro pos acc acc' hrel h hrf0 hex
    rcases hex with ⟨q, t, hq1, hq2, -, -⟩
    omega
  | succ fuel ih =>
    intro pos acc acc' hrel h hrf0 hex
    rw [cycleAux] at h
    split at h
    · rename_i hcur
      rcases hex with ⟨q, t, hq1, hq2, hsnap, hfq⟩
      rcases Rel.failed_transfer_back hrel hsnap hfq with ⟨t1, h1, -⟩
      have : acc.cur[q]? = none :=
        List.getElem?_eq_none_iff.mpr
          (le_trans (List.getElem?_eq_none_iff.mp hcur) hq1)
      rw [this] at h1
      cases h1
    · rename_i ti hcur
      split at h
      · cases h
        rfl
      · rename_i hnf
        split at h
        · rename_i hsucc
          rcases hex with ⟨q, t, hq1, hq2, hsnap, hfq⟩
          have hqpos : q ≠ pos := by
            intro hqe
            subst hqe
            rcases Rel.success_transfer hrel hcur hsucc with ⟨t0, h0, h0s⟩
            rw [hsnap] at h0
            cases h0
            rw [h0s] at hfq
            cases hfq
          exact ih (pos + 1) acc acc' hrel h hrf0 ⟨q, t, by omega, by omega, hsnap, hfq⟩
        · rename_i hnsucc
          split at h
          · exact Option.noConfusion h
          · split at h
            · rename_i hcond
              have hrel2 := Rel.set snap acc.cur pos ti hrel hcur hcond.2.1
              rcases hex with ⟨q, t, hq1, hq2, hsnap, hfq⟩
              have hqpos : q ≠ pos := by
                intro hqe
                subst hqe
                exact Rel.not_failed_transfer hrel hcur
                  (by rw [hcond.2.1]; intro hc; cases hc) t hsnap hfq
              exact ih (pos + 1) _ acc' hrel2 h hrf0 ⟨q, t, by omega, by omega, hsnap, hfq⟩
            · rcases hex with ⟨q, t, hq1, hq2, hsnap, hfq⟩
              have hqpos : q ≠ pos := by
                intro hqe
                subst hqe
                exact Rel.not_failed_transfer hrel hcur hnf t hsnap hfq
              exact ih (pos + 1) { acc with allC := false } acc' hrel h hrf0
                ⟨q, t, by omega, by omega, hsnap, hfq⟩

theorem findIdx_eq_of_first {α : Type _} (p : α → Bool) :
    ∀ (l : List α) (q : Nat) (t : α), l[q]? = some t → p t = true →
      (∀ (j : Nat) (t' : α), j < q → l[j]? = some t' → p t' = false) →
      List.findIdx p l = q := by
  intro l
  induction l with
  | nil =>
    intro q t hq
    rw [List.getElem?_nil] at hq
    cases hq
  | cons a as ih =>
    intro q t hq hp hmin
    cases q with
    | zero =>
      rw [List.getElem?_cons_zero] at hq
      cases hq
      rw [List.findIdx_cons, hp]
      rfl
    | succ q =>
      rw [List.getElem?_cons_succ] at hq
      have ha : p a = false := hmin 0 a (Nat.succ_pos q) List.getElem?_cons_zero
      have hrec := ih q t hq hp
        (fun j t' hj hg => hmin (j + 1) t' (by omega)
          (by rw [List.getElem?_cons_succ]; exact hg))
      rw [List.findIdx_cons, ha]
      simp [hrec]

/-- C2: one polling cycle of the scheduler loop sets the run's overall
status to SUCCESS iff every task instance of the loaded snapshot is SUCCESS;
it sets the run to FAILED iff some instance of the snapshot is FAILED,
regardless of the other instances, stamping `end_time` and persisting as the
final event, and dispatching only indices strictly before the first FAILED
instance in iteration order — never after observing the failure. -/
theorem run_terminal_status_correct (ids : List String) (futd : String → Bool)
    (futKeys : List String) (md : RunMetadata) (now : Nat) (r : CycleResult)
    (h : monitorCycle ids futd futKeys md now = some r) :
    (r.outcome = .successExit ↔ ∀ t ∈ md.task_instances, t.status = .success)
      ∧ (r.outcome = .failedExit ↔ ∃ t ∈ md.task_instances, t.status = .failed)
      ∧ (r.outcome = .failedExit →
          r.doc.status = .failed ∧ r.doc.end_time = some now
            ∧ r.evs.getLast? = some (.persistDoc r.doc)
            ∧ ∀ p ∈ r.disp,
                p < List.findIdx (fun t => t.status == Status.failed)
                      md.task_instances) := by
  rw [monitorCycle] at h
  cases haux : cycleAux ids futd md md.task_instances.length 0
      { cur := md.task_instances, evs := [], disp := [], futKeys := futKeys,
        allC := true, runF := false } with
  | none =>
    rw [haux] at h
    cases h
  | some acc =>
    rw [haux] at h
    dsimp only at h
    by_cases hrf : acc.runF = true
    · rw [if_pos hrf] at h
      cases h
      rcases cycleAux_failed_analysis ids futd md md.task_instances _ 0 _ acc
          (Rel.refl _) haux rfl hrf with ⟨q, t, hq0, hsnap, hfq, hmin, hdisp⟩
      have hfidx : List.findIdx (fun t => t.status == Status.failed)
          md.task_instances = q := by
        refine findIdx_eq_of_first _ md.task_instances q t hsnap (by simp [hfq]) ?_
        intro j t' hj hg
        have := hmin j t' (Nat.zero_le j) hj hg
        simpa using this
      refine ⟨?_, ?_, ?_⟩
      · constructor
        · intro he
          cases he
        · intro hall
          have hall' : ∀ (j : Nat) (t : TaskInstance),
              md.task_instances[j]? = some t → t.status = .success := by
            intro j t0 hget
            exact hall t0 (List.mem_iff_getElem?.mpr ⟨j, hget⟩)
          have hnoop := cycleAux_all_success ids futd md md.task_instances.length 0
            { cur := md.task_instances, evs := [], disp := [], futKeys := futKeys,
              allC := true, runF := false } hall'
          rw [hnoop] at haux
          cases haux
          cases hrf
      · constructor
        · intro _
          exact ⟨t, List.mem_iff_getElem?.mpr ⟨q, hsnap⟩, hfq⟩
        · intro _
          rfl
      · intro _
        refine ⟨rfl, rfl, List.getLast?_concat _, ?_⟩
        intro p hp
        rcases hdisp p hp with hpd | ⟨-, hp2⟩
        · exact absurd hpd (List.not_mem_nil p)
        · rw [hfidx]
          exact hp2
    · have hrf' : acc.runF = false := Bool.eq_false_iff.mpr hrf
      rw [if_neg hrf] at h
      by_cases hac : acc.allC = true
      · rw [if_pos hac] at h
        cases h
        rcases cycleAux_success_analysis ids futd md md.task_instances.length 0 _
            acc (by simp) haux hrf' hac with ⟨-, hall⟩
        refine ⟨?_, ?_, ?_⟩
        · constructor
          · intro _
            intro t ht
            rcases List.mem_iff_getElem?.mp ht with ⟨j, hj⟩
            exact hall j t (Nat.zero_le j) hj
          · intro _
            rfl
        · constructor
          · intro he
            cases he
          · intro hex
            rcases hex with ⟨t, ht, htf⟩
            rcases List.mem_iff_getElem?.mp ht with ⟨j, hj⟩
            have := cycleAux_finds_failed ids futd md md.task_instances _ 0 _ acc
              (Rel.refl _) haux rfl
              ⟨j, t, Nat.zero_le j, by simpa using lt_length_of_getElem?_eq_some hj,
                hj, htf⟩
            rw [hrf'] at this
            cases this
        · intro he
          cases he
      · rw [if_neg hac] at h
        cases h
        refine ⟨?_, ?_, ?_⟩
        · constructor
          · intro he
            cases he
          · intro hall
            have hall' : ∀ (j : Nat) (t : TaskInstance),
                md.task_instances[j]? = some t → t.status = .success := by
              intro j t0 hget
              exact hall t0 (List.mem_iff_getElem?.mpr ⟨j, hget⟩)
            have hnoop := cycleAux_all_success ids futd md md.task_instances.length 0
              { cur := md.task_instances, evs := [], disp := [], futKeys := futKeys,
                allC := true, runF := false } hall'
            rw [hnoop] at haux
            cases haux
            exact absurd rfl hac
        · constructor
          · intro he
            cases he
          · intro hex
            rcases hex with ⟨t, ht, htf⟩
            rcases List.mem_iff_getElem?.mp ht with ⟨j, hj⟩
            have := cycleAux_finds_failed ids futd md md.task_instances _ 0 _ acc
              (Rel.refl _) haux rfl
              ⟨j, t, Nat.zero_le j, by simpa using lt_length_of_getElem?_eq_some hj,
                hj, htf⟩
            rw [hrf'] at this
            cases this
        · intro he
          cases he

/-- A FAILED instance with no dependencies, used by the C2 witness. -/
def c2InstX : TaskInstance :=
  { task_id := "X", status := .failed, start_time := some 1, end_time := some 2,
    log_file_path := "lx", depends_on := [] }

/-- A QUEUED instance depending on `X`, used by the C2 witness. -/
def c2InstY : TaskInstance :=
  { task_id := "Y", status := .queued, start_time := none, end_time := none,
    log_file_path := "ly", depends_on := ["X"] }

/-- Snapshot with one FAILED and one QUEUED instance. -/
def c2Meta : RunMetadata :=
  { dag_id := "d2", run_id := "r2", start_time := some 0, end_time := none,
    status := .running, task_instances := [c2InstX, c2InstY] }

theorem run_terminal_status_correct_witness :
    ∃ r, monitorCycle ["X", "Y"] (fun _ => false) [] c2Meta 9 = some r
      ∧ ((r.outcome = .successExit ↔ ∀ t ∈ c2Meta.task_instances, t.status = .success)
        ∧ (r.outcome = .failedExit ↔ ∃ t ∈ c2Meta.task_instances, t.status = .failed)
        ∧ (r.outcome = .failedExit →
            r.doc.status = .failed ∧ r.doc.end_time = some 9
              ∧ r.evs.getLast? = some (.persistDoc r.doc)
              ∧ ∀ p ∈ r.disp,
                  p < List.findIdx (fun t => t.status == Status.failed)
                        c2Meta.task_instances)) :=
  ⟨_, rfl, run_terminal_status_correct ["X", "Y"] (fun _ => false) [] c2Meta 9 _ rfl⟩

/-- C3: every task-instance index the scheduler dispatches in a cycle was
QUEUED in the most recently loaded snapshot and had every `depends_on` entry
resolving (through the `task_id_to_idx` order `ids`) to an instance whose
status is SUCCESS in that snapshot. -/
theorem task_dispatched_only_when_deps_success (ids : List String)
    (futd : String → Bool) (futKeys : List String) (md : RunMetadata) (now : Nat)
    (r : CycleResult) (h : monitorCycle ids futd futKeys md now = some r) :
    ∀ p ∈ r.disp,
      ∃ ti, md.task_instances[p]? = some ti ∧ ti.status = .queued
        ∧ ∀ d ∈ ti.depends_on, ∃ j tj,
            List.findIdx? (fun x => x == d) ids = some j
              ∧ md.task_instances[j]? = some tj ∧ tj.status = .success := by
  rw [monitorCycle] at h
  cases haux : cycleAux ids futd md md.task_instances.length 0
      { cur := md.task_instances, evs := [], disp := [], futKeys := futKeys,
        allC := true, runF := false } with
  | none =>
    rw [haux] at h
    cases h
  | some acc =>
    rw [haux] at h
    dsimp only at h
    have hrd : r.disp = acc.disp := by
      by_cases hrf : acc.runF = true
      · rw [if_pos hrf] at h
        cases h
        rfl
      · rw [if_neg hrf] at h
        by_cases hac : acc.allC = true
        · rw [if_pos hac] at h
          cases h
          rfl
        · rw [if_neg hac] at h
          cases h
          rfl
    intro p hp
    rw [hrd] at hp
    rcases cycleAux_disp_sound ids futd md md.task_instances
        md.task_instances.length 0 _ acc (Rel.refl _) haux p hp with hmem | hgood
    · exact absurd hmem (List.not_mem_nil p)
    · exact hgood

/-- A SUCCESS instance with no dependencies, used by the C3 witness. -/
def c3InstX : TaskInstance :=
  { task_id := "X", status := .success, start_time := some 1, end_time := some 2,
    log_file_path := "lx", depends_on := [] }

/-- A QUEUED instance depending on `X`, used by the C3 witness; its dispatch
is enabled because `X` is SUCCESS. -/
def c3InstY : TaskInstance :=
  { task_id := "Y", status := .queued, start_time := none, end_time := none,
    log_file_path := "ly", depends_on := ["X"] }

/-- Snapshot in which exactly task `Y` is ready to dispatch. -/
def c3Meta : RunMetadata :=
  { dag_id := "d3", run_id := "r3", start_time := some 0, end_time := none,
    status := .running, task_instances := [c3InstX, c3InstY] }

theorem task_dispatched_only_when_deps_success_witness :
    ∃ r, monitorCycle ["X", "Y"] (fun _ => false) [] c3Meta 9 = some r
      ∧ (1 ∈ r.disp)
      ∧ ∀ p ∈ r.disp,
          ∃ ti, c3Meta.task_instances[p]? = some ti ∧ ti.status = .queued
            ∧ ∀ d ∈ ti.depends_on, ∃ j tj,
                List.findIdx? (fun x => x == d) ["X", "Y"] = some j
                  ∧ c3Meta.task_instances[j]? = some tj ∧ tj.status = .success :=
  ⟨_, rfl, by decide,
    task_dispatched_only_when_deps_success ["X", "Y"] (fun _ => false) [] c3Meta 9
      _ rfl⟩

/-- Head test used by `submitsImmediatelyPended`: the trace continues with a
persist whose document shows instance `i` as PENDING. -/
def pendHead (i : Nat) : List Ev → Bool
  | Ev.persistDoc m :: _ =>
      match m.task_instances[i]? with
      | some t => t.status == Status.pending
      | none => false
  | _ => false

/-- Checks that in an event trace every pool submission of index `i` is
immediately followed by a persist whose document shows instance `i` as
PENDING (the line 136-137 pattern: mark PENDING and persist right after
`submit`). -/
def submitsImmediatelyPended : List Ev → Bool
  | [] => true
  | Ev.submitTask i :: rest => pendHead i rest && submitsImmediatelyPended rest
  | _ :: rest => submitsImmediatelyPended rest

theorem pendHead_append (i : Nat) (r0 : Ev) (rs b : List Ev)
    (h : pendHead i (r0 :: rs) = true) : pendHead i (r0 :: (rs ++ b)) = true := by
  cases r0 <;> simp [pendHead] at h ⊢ <;> exact h

theorem submitsImmediatelyPended_append :
    ∀ a b : List Ev, submitsImmediatelyPended a = true →
      submitsImmediatelyPended b = true →
      submitsImmediatelyPended (a ++ b) = true := by
  intro a
  induction a with
  | nil =>
    intro b _ hb
    simpa using hb
  | cons x rest ih =>
    intro b ha hb
    cases x with
    | submitTask i =>
      simp only [submitsImmediatelyPended, Bool.and_eq_true] at ha
      rcases ha with ⟨hhead, htail⟩
      cases rest with
      | nil => simp [pendHead] at hhead
      | cons r0 rs =>
        simp only [List.cons_append, submitsImmediatelyPended, Bool.and_eq_true]
        exact ⟨pendHead_append i r0 rs b hhead, ih b htail hb⟩
    | persistDoc m =>
      simp only [submitsImmediatelyPended] at ha
      simp only [List.cons_append, submitsImmediatelyPended]
      exact ih b ha hb
    | writeLog p c =>
      simp only [submitsImmediatelyPended] at ha
      simp only [List.cons_append, submitsImmediatelyPended]
      exact ih b ha hb
    | logInfo m =>
      simp only [submitsImmediatelyPended] at ha
      simp only [List.cons_append, submitsImmediatelyPended]
      exact ih b ha hb
    | logError m =>
      simp only [submitsImmediatelyPended] at ha
      simp only [List.cons_append, submitsImmediatelyPended]
      exact ih b ha hb

/-- The task loop only appends blocks of the shape
`[logInfo, submitTask pos, persistDoc (... pos ↦ PENDING ...)]`, so the
submit-then-immediately-persist-PENDING property of the trace is
preserved. -/
theorem cycleAux_SIP (ids : List String) (futd : String → Bool)
    (md : RunMetadata) :
    ∀ (fuel pos : Nat) (acc acc' : CycleAcc),
      cycleAux ids futd md fuel pos acc = some acc' →
      submitsImmediatelyPended acc.evs = true →
      submitsImmediatelyPended acc'.evs = true := by
  intro fuel
  induction fuel with
  | zero =>
    intro pos acc acc' h hs
    rw [cycleAux] at h
    cases h
    exact hs
  | succ fuel ih =>
    intro pos acc acc' h hs
    rw [cycleAux] at h
    split at h
    · cases h
      exact hs
    · rename_i ti hcur
      split at h
      · cases h
        exact hs
      · split at h
        · exact ih (pos + 1) acc acc' h hs
        · split at h
          · exact Option.noConfusion h
          · split at h
            · rename_i hcond
              refine ih (pos + 1) _ acc' h ?_
              refine submitsImmediatelyPended_append _ _ hs ?_
              have hpend : (acc.cur.set pos
                  { ti with status := .pending })[pos]? = some
                    { ti with status := .pending } :=
                getElem?_set_self_of_some hcur
              simp [submitsImmediatelyPended, pendHead, hpend]
            · exact ih (pos + 1) { acc with allC := false } acc' h hs

/-- C7 (amended): for every dispatch the scheduler performs, the submission
is immediately followed — within the same loop iteration — by the persist of
the document showing that instance PENDING; nothing happens between the
submit and the PENDING persist in the scheduler's own event order. -/
theorem dispatch_pending_persisted_immediately (ids : List String)
    (futd : String → Bool) (futKeys : List String) (md : RunMetadata)
    (now : Nat) (r : CycleResult)
    (h : monitorCycle ids futd futKeys md now = some r) :
    submitsImmediatelyPended r.evs = true := by
  rw [monitorCycle] at h
  cases haux : cycleAux ids futd md md.task_instances.length 0
      { cur := md.task_instances, evs := [], disp := [], futKeys := futKeys,
        allC := true, runF := false } with
  | none =>
    rw [haux] at h
    cases h
  | some acc =>
    rw [haux] at h
    dsimp only at h
    have hsip : submitsImmediatelyPended acc.evs = true :=
      cycleAux_SIP ids futd md md.task_instances.length 0 _ acc haux rfl
    by_cases hrf : acc.runF = true
    · rw [if_pos hrf] at h
      cases h
      exact submitsImmediatelyPended_append _ _ hsip rfl
    · rw [if_neg hrf] at h
      by_cases hac : acc.allC = true
      · rw [if_pos hac] at h
        cases h
        exact submitsImmediatelyPended_append _ _ hsip rfl
      · rw [if_neg hac] at h
        cases h
        exact hsip

/-- The claim-level predicate C7 asserts: before the first submission of
index `i`, some persist already shows instance `i` as PENDING. -/
def pendingPersistedBeforeSubmit (evs : List Ev) (i : Nat) : Bool :=
  match List.findIdx? (fun e => e == Ev.submitTask i) evs with
  | none => true
  | some s =>
      (evs.take s).any (fun e =>
        match e with
        | Ev.persistDoc m =>
            match m.task_instances[i]? with
            | some t => t.status == Status.pending
            | none => false
        | _ => false)

/-- A QUEUED no-dependency instance, ready for dispatch. -/
def c7Inst : TaskInstance :=
  { task_id := "a7", status := .queued, start_time := none, end_time := none,
    log_file_path := "l7", depends_on := [] }

/-- Snapshot with the single ready instance `c7Inst`. -/
def c7Meta : RunMetadata :=
  { dag_id := "d7", run_id := "r7", start_time := some 0, end_time := none,
    status := .running, task_instances := [c7Inst] }

/-- C7 counterexample: the claim says a dispatched task's PENDING status is
persisted *before* the pool submission (so no concurrent reader can see a
submitted task still QUEUED).  The code does the opposite order:
`executor.submit` on line 134 precedes the PENDING write and persist on
lines 136-137.  On the concrete one-task snapshot `c7Meta`, index 0 is
dispatched, yet no persist showing it PENDING precedes the submit event. -/
theorem submit_precedes_pending_persist :
    ∃ r, monitorCycle ["a7"] (fun _ => false) [] c7Meta 7 = some r
      ∧ 0 ∈ r.disp
      ∧ pendingPersistedBeforeSubmit r.evs 0 = false :=
  ⟨_, rfl, by decide, by decide⟩

theorem dispatch_pending_persisted_immediately_witness :
    ∃ r, monitorCycle ["a7"] (fun _ => false) [] c7Meta 8 = some r
      ∧ submitsImmediatelyPended r.evs = true :=
  ⟨_, rfl,
    dispatch_pending_persisted_immediately ["a7"] (fun _ => false) [] c7Meta 8
      _ rfl⟩

/-- `get_dag_by_id` over the `ALL_DAGS` registry
(`dag_definitions.py` lines 79-88), modelled as lookup in the registered
list (dict built by comprehension: later duplicate ids win, as in
`DAG.get_task`). -/
def get_dag_by_id (dags : List DAG) (dag_id : String) : Option DAG :=
  dags.foldl (fun acc d => if d.dag_id == dag_id then some d else acc) none

/-- Lookup of a blob path in a store modelled as a path-keyed association
list. -/
def storeLookup (store : List (String × RunMetadata)) (path : String) :
    Option RunMetadata :=
  (store.find? (fun e => e.1 == path)).map (fun e => e.2)

/-- What the `trigger_dag` endpoint returns (`app.py` lines 118-145): a 404
for an unknown dag id, or a 200 with the new run id. -/
inductive TriggerOutcome where
  | dagNotFound
  | triggered (run_id : String)
deriving DecidableEq, Repr

/-- Result of the trigger endpoint: the HTTP outcome, the state of the blob
store at the moment the response is returned, and the events the scheduler
thread spawned by `start_dag_run` will perform, in order, starting with its
first action. -/
structure TriggerRes where
  outcome : TriggerOutcome
  store : List (String × RunMetadata)
  spawned : List Ev
deriving Repr

/-- The first events of `_monitor_dag_run` (`dag_runner.py` lines 93-94),
executed on the background thread: build the initial metadata and persist
it. -/
def monitorInitEvents (dag : DAG) (run_id : String) (now : Nat) : List Ev :=
  [.persistDoc (getInitialRunMetadata dag run_id now)]

/-- The `trigger_dag` endpoint (`app.py` lines 118-145) together with
`DAGExecutor.start_dag_run` (`dag_runner.py` lines 157-162): look the DAG up
in the registry; if absent return 404 without touching the store; otherwise
create the executor (drawing the fresh `run_id`), start `_monitor_dag_run`
on a background thread, and return the run id at once.  The endpoint itself
performs no store write — the initial Run State persist is the spawned
thread's first event. -/
def trigger_dag (dags : List DAG) (dag_id : String) (fresh_run_id : String)
    (store : List (String × RunMetadata)) (now : Nat) : TriggerRes :=
  match get_dag_by_id dags dag_id with
  | none => { outcome := .dagNotFound, store := store, spawned := [] }
  | some dag =>
      { outcome := .triggered fresh_run_id, store := store,
        spawned := monitorInitEvents dag fresh_run_id now }

/-- A registered one-task DAG for the C6 theorems. -/
def c6Dag : DAG :=
  { dag_id := "d6", schedule_interval := none,
    tasks := [{ task_id := "t6", bigquery_query := "SELECT 6", depends_on := [] }] }

/-- C6 counterexample: the claim says the persisted initial Run State
document exists by the time `trigger` returns the run id.  In the code the
initial Run State is created and persisted by `_monitor_dag_run` on the
background thread started by `start_dag_run`, while the endpoint returns
immediately; the endpoint itself writes nothing.  Triggering the registered
`c6Dag` against an empty store returns the run id while the store still has
no document at the run's metadata path. -/
theorem trigger_returns_before_initial_persist :
    (trigger_dag [c6Dag] "d6" "run6" [] 0).outcome = .triggered "run6"
      ∧ storeLookup (trigger_dag [c6Dag] "d6" "run6" [] 0).store
          (metadataGcsPath "d6" "run6") = none :=
  ⟨rfl, rfl⟩

/-- C6 (amended): `trigger` fails with `DagNotFound` for an unknown dag id,
creating no Run State and spawning nothing; for a registered DAG it returns
the fresh run id immediately, itself writing nothing to the store, and the
scheduler thread it spawns persists — as its first action — the initial Run
State with overall status RUNNING, no end time, and every task instance
QUEUED. -/
theorem trigger_contract (dags : List DAG) (dag_id fresh_run_id : String)
    (store : List (String × RunMetadata)) (now : Nat) :
    (get_dag_by_id dags dag_id = none →
        trigger_dag dags dag_id fresh_run_id store now
          = { outcome := .dagNotFound, store := store, spawned := [] })
      ∧ ∀ dag, get_dag_by_id dags dag_id = some dag →
          (trigger_dag dags dag_id fresh_run_id store now).outcome
              = .triggered fresh_run_id
            ∧ (trigger_dag dags dag_id fresh_run_id store now).store = store
            ∧ (trigger_dag dags dag_id fresh_run_id store now).spawned
                = [.persistDoc (getInitialRunMetadata dag fresh_run_id now)]
            ∧ (getInitialRunMetadata dag fresh_run_id now).status = .running
            ∧ (getInitialRunMetadata dag fresh_run_id now).end_time = none
            ∧ ∀ t ∈ (getInitialRunMetadata dag fresh_run_id now).task_instances,
                t.status = .queued := by
  constructor
  · intro hnone
    rw [trigger_dag, hnone]
  · intro dag hsome
    rw [trigger_dag, hsome]
    refine ⟨rfl, rfl, rfl, rfl, rfl, ?_⟩
    intro t ht
    rw [getInitialRunMetadata] at ht
    dsimp only at ht
    rcases List.mem_map.mp ht with ⟨tk, -, htk⟩
    rw [← htk]
    rfl

theorem trigger_contract_witness :
    get_dag_by_id [c6Dag] "d6" = some c6Dag
      ∧ ((trigger_dag [c6Dag] "d6" "run6" [] 5).outcome = .triggered "run6"
        ∧ (trigger_dag [c6Dag] "d6" "run6" [] 5).store = []
        ∧ (trigger_dag [c6Dag] "d6" "run6" [] 5).spawned
            = [.persistDoc (getInitialRunMetadata c6Dag "run6" 5)]
        ∧ (getInitialRunMetadata c6Dag "run6" 5).status = .running
        ∧ (getInitialRunMetadata c6Dag "run6" 5).end_time = none
        ∧ ∀ t ∈ (getInitialRunMetadata c6Dag "run6" 5).task_instances,
            t.status = .queued) :=
  ⟨rfl, (trigger_contract [c6Dag] "d6" "run6" [] 5).2 c6Dag rfl⟩

/-- The Python aliased in-place update
`task_instance = doc["task_instances"][i]; task_instance[...] = ...`:
modify the element at index `i` when present. -/
def listModify {α : Type _} (l : List α) (i : Nat) (f : α → α) : List α :=
  match l[i]? with
  | some a => l.set i (f a)
  | none => l

theorem listModify_getElem?_self {α : Type _} (l : List α) (i : Nat)
    (f : α → α) (a : α) (h : l[i]? = some a) :
    (listModify l i f)[i]? = some (f a) := by
  rw [listModify, h]
  exact getElem?_set_self_of_some h

/-- The scheduler's local mutation of line 136: instance `i` set PENDING. -/
def setPendingDoc (m : RunMetadata) (i : Nat) : RunMetadata :=
  let f := fun (t : TaskInstance) => { t with status := Status.pending }
  { m with task_instances := listModify m.task_instances i f }

/-- The executor's local mutation of lines 65-66: instance `i` set RUNNING
with its start time stamped. -/
def setRunningDoc (m : RunMetadata) (i t1 : Nat) : RunMetadata :=
  let f := fun (t : TaskInstance) => { t with status := Status.running, start_time := some t1 }
  { m with task_instances := listModify m.task_instances i f }

/-- The executor's local mutation of lines 74/78/83 and 87: instance `i`
carries the outcome status and its end time. -/
def setOutcomeDoc (m : RunMetadata) (i : Nat) (ok : Bool) (t2 : Nat) :
    RunMetadata :=
  let f := fun (t : TaskInstance) =>
    { t with status := if ok then Status.success else Status.failed, end_time := some t2 }
  { m with task_instances := listModify m.task_instances i f }

/-- Primitive operations of the two writers on the shared store: load the
document, mutate the local copy, or persist the local copy
(whole-document read-modify-write with no concurrency token — §5 of the
design). -/
inductive WOp where
  | wLoad
  | wSetPending (i : Nat)
  | wSetRunning (i : Nat) (t1 : Nat)
  | wSetOutcome (i : Nat) (ok : Bool) (t2 : Nat)
  | wPersist
deriving DecidableEq, Repr

/-- A thread: its local in-memory document and its remaining script. -/
structure ThreadSt where
  localDoc : Option RunMetadata
  ops : List WOp
deriving DecidableEq, Repr

/-- Apply a local-mutation op to an in-memory document. -/
def applyLocal (op : WOp) (m : RunMetadata) : RunMetadata :=
  match op with
  | .wSetPending i => setPendingDoc m i
  | .wSetRunning i t1 => setRunningDoc m i t1
  | .wSetOutcome i ok t2 => setOutcomeDoc m i ok t2
  | _ => m

/-- The whole system: shared store plus the scheduler thread (mid-dispatch)
and one task-executor worker. -/
structure Sys where
  store : Option RunMetadata
  sched : ThreadSt
  exec : ThreadSt
deriving DecidableEq, Repr

/-- Execute one op of a thread against the store. -/
def stepThread (store : Option RunMetadata) (th : ThreadSt) :
    Option RunMetadata × ThreadSt :=
  match th.ops with
  | [] => (store, th)
  | .wLoad :: rest => (store, { localDoc := store, ops := rest })
  | .wPersist :: rest => (th.localDoc, { localDoc := th.localDoc, ops := rest })
  | op :: rest => (store, { localDoc := th.localDoc.map (applyLocal op), ops := rest })

/-- One interleaving step: `true` lets the executor thread act, `false` the
scheduler thread. -/
def sysStep (s : Sys) (execTurn : Bool) : Sys :=
  if execTurn then
    let p := stepThread s.store s.exec
    { s with store := p.1, exec := p.2 }
  else
    let p := stepThread s.store s.sched
    { s with store := p.1, sched := p.2 }

/-- Whether the thread's next op is a store write. -/
def isPersistHead (th : ThreadSt) : Bool :=
  match th.ops with
  | .wPersist :: _ => true
  | _ => false

/-- Run a schedule, collecting the documents written to the store, in
order. -/
def runWrites (s : Sys) : List Bool → List RunMetadata
  | [] => []
  | c :: cs =>
      let th := if c then s.exec else s.sched
      let s2 := sysStep s c
      let rest := runWrites s2 cs
      if isPersistHead th then
        match s2.store with
        | some m => m :: rest
        | none => rest
      else rest

/-- Status of instance `i` in a document. -/
def instStatus (m : RunMetadata) (i : Nat) : Option Status :=
  (m.task_instances[i]?).map (fun t => t.status)

/-- The transitions the claim allows:
QUEUED → PENDING → RUNNING → SUCCESS or FAILED. -/
def allowedStep : Status → Status → Bool
  | .queued, .pending => true
  | .pending, .running => true
  | .running, .success => true
  | .running, .failed => true
  | _, _ => false

/-- Every consecutive pair of the list is an allowed transition. -/
def chainOk : List Status → Bool
  | [] => true
  | [_] => true
  | a :: b :: rest => allowedStep a b && chainOk (b :: rest)

/-- The scheduler's remaining script right after `executor.submit(i)` on
line 134: set PENDING (line 136) and persist (line 137), its local copy
being the snapshot it loaded on line 101. -/
def schedDispatchOps (i : Nat) : List WOp := [.wSetPending i, .wPersist]

/-- The worker's script for `_execute_task i` (lines 57, 65-67, 72-88):
load the document, set RUNNING and persist, set the outcome and persist. -/
def execTaskOps (i : Nat) (ok : Bool) (t1 t2 : Nat) : List WOp :=
  [.wLoad, .wSetRunning i t1, .wPersist, .wSetOutcome i ok t2, .wPersist]

/-- The system right after the scheduler submitted instance `i` to the
pool: the store and the scheduler's local copy hold the loaded snapshot,
the worker has not yet started. -/
def dispatchSys (m0 : RunMetadata) (i : Nat) (ok : Bool) (t1 t2 : Nat) : Sys :=
  { store := some m0
    sched := { localDoc := some m0, ops := schedDispatchOps i }
    exec := { localDoc := none, ops := execTaskOps i ok t1 t2 } }

/-- The statuses instance `i` shows in the persisted store: initial
snapshot value followed by the value after each store write of the
schedule. -/
def statusHistory (m0 : RunMetadata) (i : Nat) (ok : Bool) (t1 t2 : Nat)
    (sched : List Bool) : List (Option Status) :=
  instStatus m0 i
    :: (runWrites (dispatchSys m0 i ok t1 t2) sched).map (fun m => instStatus m i)

/-- The interleaving in which the worker runs to completion between the
scheduler's `submit` and its PENDING persist (possible, since line 134
precedes lines 136-137). -/
def racySchedule : List Bool := [true, true, true, true, true, false, false]

/-- The race-free interleaving: the scheduler finishes its dispatch persist
before the worker starts. -/
def canonicalSchedule : List Bool := [false, false, true, true, true, true, true]

/-- The single QUEUED instance of the C4 counterexample snapshot. -/
def c4Inst : TaskInstance :=
  { task_id := "a4", status := .queued, start_time := none, end_time := none,
    log_file_path := "l4", depends_on := [] }

/-- A one-instance snapshot for the C4 counterexample. -/
def c4Meta : RunMetadata :=
  { dag_id := "d4", run_id := "r4", start_time := some 0, end_time := none,
    status := .running, task_instances := [c4Inst] }

/-- C4 counterexample: the claim says no transition outside
QUEUED → PENDING → RUNNING → {SUCCESS, FAILED} is reachable under any
interleaving of scheduler and executor writes.  Because the store is updated
by unsynchronized whole-document read-modify-writes and `submit` precedes
the PENDING persist, the racy interleaving makes the persisted status of the
instance go QUEUED → RUNNING → SUCCESS → PENDING: a terminal status changes
again, and SUCCESS → PENDING is not an allowed step. -/
theorem status_regression_reachable :
    statusHistory c4Meta 0 true 1 2 racySchedule
        = [some .queued, some .running, some .success, some .pending]
      ∧ chainOk (statusHistory c4Meta 0 true 1 2 racySchedule).reduceOption = false
      ∧ allowedStep .success .pending = false :=
  ⟨by decide, by decide, by decide⟩

/-- C4 (amended): each writer on its own only moves an instance forward —
the scheduler turns QUEUED into PENDING, the executor turns the loaded
status into RUNNING and then into SUCCESS or FAILED — so under the race-free
dispatch-then-execute interleaving (no overlapping read-modify-writes) the
persisted status history of a dispatched instance is exactly
QUEUED, PENDING, RUNNING, then SUCCESS or FAILED, every step allowed; status
regressions only arise when the unsynchronized writes interleave (the
documented lost-update race of §5). -/
theorem status_chain_canonical (m0 : RunMetadata) (i : Nat)
    (ti : TaskInstance) (ok : Bool) (t1 t2 : Nat)
    (h1 : m0.task_instances[i]? = some ti) (hq : ti.status = .queued) :
    statusHistory m0 i ok t1 t2 canonicalSchedule
        = [some .queued, some .pending, some .running,
           some (if ok then Status.success else Status.failed)]
      ∧ chainOk (statusHistory m0 i ok t1 t2 canonicalSchedule).reduceOption
          = true := by
  have hp1 : (setPendingDoc m0 i).task_instances[i]?
      = some { ti with status := .pending } :=
    listModify_getElem?_self _ i _ ti h1
  have hp2 : (setRunningDoc (setPendingDoc m0 i) i t1).task_instances[i]?
      = some { ti with status := .running, start_time := some t1 } := by
    have h2 := listModify_getElem?_self (setPendingDoc m0 i).task_instances i
      (fun t => { t with status := Status.running, start_time := some t1 })
      { ti with status := .pending } hp1
    simpa [setRunningDoc] using h2
  have hp3 : (setOutcomeDoc (setRunningDoc (setPendingDoc m0 i) i t1) i ok
        t2).task_instances[i]?
      = some { ti with
          status := if ok then Status.success else Status.failed
          start_time := some t1
          end_time := some t2 } := by
    have h3 := listModify_getElem?_self
      (setRunningDoc (setPendingDoc m0 i) i t1).task_instances i
      (fun t => { t with status := if ok then Status.success else Status.failed, end_time := some t2 })
      { ti with status := .running, start_time := some t1 } hp2
    simpa [setOutcomeDoc] using h3
  have hhist : statusHistory m0 i ok t1 t2 canonicalSchedule
      = [instStatus m0 i, instStatus (setPendingDoc m0 i) i,
         instStatus (setRunningDoc (setPendingDoc m0 i) i t1) i,
         instStatus (setOutcomeDoc (setRunningDoc (setPendingDoc m0 i) i t1) i ok t2) i] := by
    rfl
  rw [hhist]
  rw [instStatus, instStatus, instStatus, instStatus, h1, hp1, hp2, hp3]
  constructor
  · simp [hq]
  · cases ok <;> simp [hq, chainOk, allowedStep, List.reduceOption]

theorem status_chain_canonical_witness :
    c4Meta.task_instances[0]? = some c4Inst
      ∧ (statusHistory c4Meta 0 false 1 2 canonicalSchedule
          = [some .queued, some .pending, some .running,
             some (if false then Status.success else Status.failed)]
        ∧ chainOk (statusHistory c4Meta 0 false 1 2 canonicalSchedule).reduceOption
            = true) :=
  ⟨rfl, status_chain_canonical c4Meta 0 _ false 1 2 rfl rfl⟩

end AirflowLite
